import Mathlib

/-!
Verification of the part-of-speech code resolver of `pynlpir/pos_map.py`.

The module holds a nested taxonomy `POS_MAP` mapping POS codes to bilingual
display names, and a resolver `_get_pos_name` that matches a code against the
taxonomy by a shortest-to-longest prefix scan at each nesting level, descending
into the matched node's children while characters remain.

Shallow embedding choices:
- A Python taxonomy entry is a tuple of length 2 (no children) or length 3
  (with a child dict); `PosEntry.leaf` and `PosEntry.node` mirror the two
  arities, and a dict is a `List (String × PosEntry)` looked up by key.
- Python exceptions are modelled by `Except PyError`; `None` by
  `Option.none`; a returned `str` or `tuple` by `PosName.str` / `PosName.tup`.
- `str.lower` is modelled on its action on ASCII (the only characters the
  taxonomy keys contain); `pyLowerChar` lowers `A`-`Z` and fixes every other
  character.
- The recursion of `_get_pos_name` is driven by a fuel parameter; the wrapper
  passes `sizeOf posMap + 1`, which strictly exceeds the depth of any chain of
  child maps inside `posMap`, so the `recursionError` fuel-exhaustion branch is
  unreachable for calls made through the wrapper.
-/

/-- A taxonomy entry: a length-2 tuple `(zh, en)` or a length-3 tuple
`(zh, en, children)` in the Python source. -/
inductive PosEntry : Type where
  | leaf (zh en : String) : PosEntry
  | node (zh en : String) (children : List (String × PosEntry)) : PosEntry

/-- Python `pos_entry[0]`: the Chinese display name. -/
def PosEntry.nameZh : PosEntry → String
  | .leaf zh _ => zh
  | .node zh _ _ => zh

/-- Python `pos_entry[1]`: the English display name. -/
def PosEntry.nameEn : PosEntry → String
  | .leaf _ en => en
  | .node _ en _ => en

/-- True for the length-2 entries, i.e. nodes without a child dict. -/
def PosEntry.isLeaf : PosEntry → Bool
  | .leaf _ _ => true
  | .node _ _ _ => false

/-- Python `pos_entry[1 if english else 0]`: the display name in the
requested language. -/
def entryName (english : Bool) (e : PosEntry) : String :=
  if english then e.nameEn else e.nameZh

/-- The Python exceptions that `_get_pos_name` can raise.  `recursionError`
models exhaustion of the recursion budget and is unreachable through the
wrapper (the fuel given exceeds any possible descent depth). -/
inductive PyError : Type where
  | valueError
  | unboundLocalError
  | typeError
  | recursionError
deriving DecidableEq

/-- A successfully produced name: a single string (granularity `parent` or
`child`) or a tuple of strings (granularity `all`). -/
inductive PosName : Type where
  | str (s : String)
  | tup (l : List String)
deriving DecidableEq

deriving instance DecidableEq for Except

/-- Action of Python `str.lower` on one ASCII character. -/
def pyLowerChar (c : Char) : Char :=
  if 65 ≤ c.toNat ∧ c.toNat ≤ 90 then Char.ofNat (c.toNat + 32) else c

/-- Python `pos_code.lower()`, characterwise. -/
def pyLower (s : String) : String := ⟨s.data.map pyLowerChar⟩

/-- The `for i in range(...)` loop body of `_get_pos_name`: try the candidate
prefix lengths in order, returning the first `pos_key`/`pos_entry` pair whose
key is present in the dict. -/
def prefixScan (posMap : List (String × PosEntry)) (code : String) :
    List Nat → Option (String × PosEntry)
  | [] => none
  | i :: rest =>
    match posMap.lookup (code.take i) with
    | some e => some (code.take i, e)
    | none => prefixScan posMap code rest

/-- The whole matching loop: `for i in range(1, len(pos_code) + 1)` with
`pos_key = pos_code[0:i]`, stopping at the first key present in `pos_map`. -/
def findMatch (posMap : List (String × PosEntry)) (code : String) :
    Option (String × PosEntry) :=
  prefixScan posMap code (List.range' 1 code.length)

/-- Fuel-indexed body of `_get_pos_name`.  Mirrors the source line by line:
lowercase the code, validate `names`, scan for the shortest matching prefix
(returning `None` for an unmatched nonempty code and raising
`UnboundLocalError` for the empty code, whose loop never binds `pos_entry`),
answer `parent` immediately, descend into a length-3 entry's children when the
match is proper, and assemble the `child`/`all` answer, gluing a truthy deeper
`all` tuple onto the current name and dropping a falsy one. -/
def getPosNameF : Nat → String → String → Bool → List (String × PosEntry) →
    Except PyError (Option PosName)
  | 0, _, _, _, _ => .error .recursionError
  | fuel + 1, posCode, names, english, posMap =>
    let code := pyLower posCode
    if ¬(names = "parent" ∨ names = "child" ∨ names = "all") then
      .error .valueError
    else
      match findMatch posMap code with
      | none => if code.length = 0 then .error .unboundLocalError else .ok none
      | some (posKey, posEntry) =>
        let pos0 : String := entryName english posEntry
        if names = "parent" then
          .ok (some (.str pos0))
        else
          match posEntry with
          | .node _ _ subMap =>
            if posKey ≠ code then
              match getPosNameF fuel code names english subMap with
              | .error e => .error e
              | .ok subPos =>
                if names = "all" then
                  match subPos with
                  | none => .ok (some (.tup [pos0]))
                  | some (.str s) =>
                      if s = "" then .ok (some (.tup [pos0]))
                      else .error .typeError
                  | some (.tup []) => .ok (some (.tup [pos0]))
                  | some (.tup l) => .ok (some (.tup (pos0 :: l)))
                else
                  .ok subPos
            else
              .ok (some (if names = "all" then PosName.tup [pos0]
                         else PosName.str pos0))
          | .leaf _ _ =>
              .ok (some (if names = "all" then PosName.tup [pos0]
                         else PosName.str pos0))

mutual
/-- Size of one taxonomy entry, counting nested entries. -/
def entrySize : PosEntry → Nat
  | .leaf _ _ => 1
  | .node _ _ ch => 1 + mapSize ch

/-- Size of a taxonomy dict, counting nested entries.  It strictly dominates
the depth of any chain of child maps inside the dict, so it is a sufficient
recursion budget for `getPosNameF`. -/
def mapSize : List (String × PosEntry) → Nat
  | [] => 1
  | (_, e) :: rest => 1 + entrySize e + mapSize rest
end

/-- `_get_pos_name(pos_code, names, english, pos_map)`.  The fuel
`mapSize posMap` strictly dominates the depth of any chain of child maps
nested inside `posMap`, so it never runs out. -/
def _get_pos_name (posCode names : String) (english : Bool)
    (posMap : List (String × PosEntry)) : Except PyError (Option PosName) :=
  getPosNameF (mapSize posMap + 1) posCode names english posMap

/-! ## The taxonomy `POS_MAP`, transcribed from the source. -/

def nr_sub : List (String × PosEntry) := [
  ("nr1", .leaf "汉语姓氏" "Chinese surname"),
  ("nr2", .leaf "汉语名字" "Chinese given name"),
  ("nrj", .leaf "日语人名" "Japanese personal name"),
  ("nrf", .leaf "音译人名" "transcribed personal name")]

def ns_sub : List (String × PosEntry) := [
  ("nsf", .leaf "音译地名" "transcribed toponym")]

def n_sub : List (String × PosEntry) := [
  ("nr", .node "人名" "personal name" nr_sub),
  ("ns", .node "地名" "toponym" ns_sub),
  ("nt", .leaf "机构团体名" "organization/group name"),
  ("nz", .leaf "其它专名" "other proper noun"),
  ("nl", .leaf "名词性惯用语" "noun phrase"),
  ("ng", .leaf "名词性语素" "noun morpheme")]

def t_sub : List (String × PosEntry) := [
  ("tg", .leaf "时间词性语素" "time morpheme")]

def v_sub : List (String × PosEntry) := [
  ("vd", .leaf "副动词" "auxiliary verb"),
  ("vn", .leaf "名动词" "noun-verb"),
  ("vshi", .leaf "动词\"是\"" "verb 是"),
  ("vyou", .leaf "动词\"有\"" "verb 有"),
  ("vf", .leaf "趋向动词" "directional verb"),
  ("vx", .leaf "行事动词" "performative verb"),
  ("vi", .leaf "不及物动词" "intransitive verb"),
  ("vl", .leaf "动词性惯用语" "verb phrase"),
  ("vg", .leaf "动词性语素" "verb morpheme")]

def a_sub : List (String × PosEntry) := [
  ("ad", .leaf "副形词" "auxiliary adjective"),
  ("an", .leaf "名形词" "noun-adjective"),
  ("ag", .leaf "形容词性语素" "adjective morpheme"),
  ("al", .leaf "形容词性惯用语" "adjective phrase")]

def b_sub : List (String × PosEntry) := [
  ("bl", .leaf "区别词性惯用语" "distinguishing phrase")]

def rz_sub : List (String × PosEntry) := [
  ("rzt", .leaf "时间指示代词" "temporal demonstrative pronoun"),
  ("rzs", .leaf "处所指示代词" "locative demonstrative pronoun"),
  ("rzv", .leaf "谓词性指示代词" "predicate demonstrative pronoun")]

def ry_sub : List (String × PosEntry) := [
  ("ryt", .leaf "时间疑问代词" "temporal interrogative pronoun"),
  ("rys", .leaf "处所疑问代词" "locative interrogative pronoun"),
  ("ryv", .leaf "谓词性疑问代词" "predicate interrogative pronoun")]

def r_sub : List (String × PosEntry) := [
  ("rr", .leaf "人称代词" "personal pronoun"),
  ("rz", .node "指示代词" "demonstrative pronoun" rz_sub),
  ("ry", .node "疑问代词" "interrogative pronoun" ry_sub),
  ("rg", .leaf "代词性语素" "pronoun morpheme")]

def m_sub : List (String × PosEntry) := [
  ("mq", .leaf "数量词" "numeral-plus-classifier compound")]

def q_sub : List (String × PosEntry) := [
  ("qv", .leaf "动量词" "verbal classifier"),
  ("qt", .leaf "时量词" "temporal classifier")]

def p_sub : List (String × PosEntry) := [
  ("pba", .leaf "介词“把”" "preposition 把"),
  ("pbei", .leaf "介词“被”" "preposition 被")]

def c_sub : List (String × PosEntry) := [
  ("cc", .leaf "并列连词" "coordinating conjunction")]

def u_sub : List (String × PosEntry) := [
  ("uzhe", .leaf "着" "particle 着"),
  ("ule", .leaf "了／喽" "particle 了/喽"),
  ("uguo", .leaf "过" "particle 过"),
  ("ude1", .leaf "的／底" "particle 的/底"),
  ("ude2", .leaf "地" "particle 地"),
  ("ude3", .leaf "得" "particle 得"),
  ("usuo", .leaf "所" "particle 所"),
  ("udeng", .leaf "等／等等／云云" "particle 等/等等/云云"),
  ("uyy", .leaf "一样／一般／似的／般" "particle 一样/一般/似的/般"),
  ("udh", .leaf "的话" "particle 的话"),
  ("uls", .leaf "来讲／来说／而言／说来" "particle 来讲/来说/而言/说来"),
  ("uzhi", .leaf "之" "particle 之"),
  ("ulian", .leaf "连" "particle 连")]

def x_sub : List (String × PosEntry) := [
  ("xe", .leaf "Email字符串" "email address"),
  ("xs", .leaf "微博会话分隔符" "hashtag"),
  ("xm", .leaf "表情符合" "emoticon"),
  ("xu", .leaf "网址URL" "URL"),
  ("xx", .leaf "非语素字" "non-morpheme character")]

def w_sub : List (String × PosEntry) := [
  ("wkz", .leaf "左括号" "left parenthesis/bracket"),
  ("wky", .leaf "右括号" "right parenthesis/bracket"),
  ("wyz", .leaf "左引号" "left quotation mark"),
  ("wyy", .leaf "右引号" "right quotation mark"),
  ("wj", .leaf "句号" "period"),
  ("ww", .leaf "问号" "question mark"),
  ("wt", .leaf "叹号" "exclamation mark"),
  ("wd", .leaf "逗号" "comma"),
  ("wf", .leaf "分号" "semicolon"),
  ("wn", .leaf "顿号" "enumeration comma"),
  ("wm", .leaf "冒号" "colon"),
  ("ws", .leaf "省略号" "ellipsis"),
  ("wp", .leaf "破折号" "dash"),
  ("wb", .leaf "百分号千分号" "percent/per mille sign"),
  ("wh", .leaf "单位符号" "unit of measure sign")]

def ga_sub : List (String × PosEntry) := [
  ("gaas", .leaf "通讯社as" "news agency as"),
  ("gaau", .leaf "通讯社au" "news agency au"),
  ("gacb", .leaf "通讯社cb" "news agency cb"),
  ("gacn", .leaf "通讯社cn" "news agency cn"),
  ("gaes", .leaf "通讯社es" "news agency es"),
  ("gafr", .leaf "通讯社fr" "news agency fr"),
  ("gagm", .leaf "通讯社gm" "news agency gm"),
  ("gahk", .leaf "通讯社hk" "news agency hk"),
  ("gaid", .leaf "通讯社id" "news agency id"),
  ("gain", .leaf "通讯社in" "news agency in"),
  ("gait", .leaf "通讯社it" "news agency it"),
  ("gajp", .leaf "通讯社jp" "news agency jp"),
  ("gakr", .leaf "通讯社kr" "news agency kr"),
  ("gakrn", .leaf "通讯社krn" "news agency krn"),
  ("game", .leaf "通讯社me" "news agency me"),
  ("gars", .leaf "通讯社rs" "news agency rs"),
  ("gatw", .leaf "通讯社tw" "news agency tw"),
  ("gauk", .leaf "通讯社uk" "news agency uk"),
  ("gaus", .leaf "通讯社us" "news agency us"),
  ("gayr", .leaf "通讯社yr" "news agency yr")]

def gn_sub : List (String × PosEntry) := [
  ("gnan", .leaf "新闻an" "news an"),
  ("gnbj", .leaf "新闻bj" "news bj"),
  ("gncq", .leaf "新闻cq" "news cq"),
  ("gndq", .leaf "新闻dq" "news dq"),
  ("gnfj", .leaf "新闻fj" "news fj"),
  ("gngd", .leaf "新闻gd" "news gd"),
  ("gngs", .leaf "新闻gs" "news gs"),
  ("gngx", .leaf "新闻gx" "news gx"),
  ("gngz", .leaf "新闻gz" "news gz"),
  ("gnhan", .leaf "新闻han" "news han"),
  ("gnheb", .leaf "新闻heb" "news heb"),
  ("gnhen", .leaf "新闻hen" "news hen"),
  ("gnhk", .leaf "新闻hk" "news hk"),
  ("gnhl", .leaf "新闻hl" "news hl"),
  ("gnhub", .leaf "新闻hub" "news hub"),
  ("gnhun", .leaf "新闻hun" "news hun"),
  ("gnjl", .leaf "新闻jl" "news jl"),
  ("gnjs", .leaf "新闻js" "news js"),
  ("gnjx", .leaf "新闻jx" "news jx"),
  ("gnln", .leaf "新闻ln" "news ln"),
  ("gnnx", .leaf "新闻nx" "news nx"),
  ("gnqg", .leaf "新闻qg" "news qg"),
  ("gnsa", .leaf "新闻sa" "news sa"),
  ("gnsc", .leaf "新闻sc" "news sc"),
  ("gnsd", .leaf "新闻sd" "news sd"),
  ("gnsh", .leaf "新闻sh" "news sh"),
  ("gnsx", .leaf "新闻sx" "news sx"),
  ("gntj", .leaf "新闻tj" "news tj"),
  ("gntw", .leaf "新闻tw" "news tw"),
  ("gnxj", .leaf "新闻xj" "news xj"),
  ("gnxz", .leaf "新闻xz" "news xz"),
  ("gnyn", .leaf "新闻yn" "news yn"),
  ("gnzj", .leaf "新闻zj" "news zj"),
  ("gnzy", .leaf "新闻zy" "news zy")]

def gr_sub : List (String × PosEntry) := [
  ("grc", .leaf "广播电台c" "radio station c"),
  ("grjyy", .leaf "广播电台jyy" "radio station jyy"),
  ("grqg", .leaf "广播电台qg" "radio station qg"),
  ("grs", .leaf "广播电台s" "radio station s")]

def gt_sub : List (String × PosEntry) := [
  ("gtc", .leaf "电视台c" "tv station c"),
  ("gthk", .leaf "电视台hk" "tv station hk"),
  ("gtqg", .leaf "电视台qg" "tv station qg"),
  ("gts", .leaf "电视台s" "tv station s"),
  ("gtw", .leaf "电视台w" "tv station w")]

def gw_sub : List (String × PosEntry) := [
  ("gwah", .leaf "网站ah" "website ah"),
  ("gwbj", .leaf "网站bj" "website bj"),
  ("gwcj", .leaf "网站cj" "website cj"),
  ("gwcq", .leaf "网站cq" "website cq"),
  ("gwdb", .leaf "网站db" "website db"),
  ("gwdc", .leaf "网站dc" "website dc"),
  ("gwfj", .leaf "网站fj" "website fj"),
  ("gwgd", .leaf "网站gd" "website gd"),
  ("gwgs", .leaf "网站gs" "website gs"),
  ("gwgx", .leaf "网站gx" "website gx"),
  ("gwhan", .leaf "网站han" "website han"),
  ("gwheb", .leaf "网站heb" "website heb"),
  ("gwhen", .leaf "网站hen" "website hen"),
  ("gwhl", .leaf "网站hl" "website hl"),
  ("gwhub", .leaf "网站hub" "website hub"),
  ("gwhun", .leaf "网站hun" "website hun"),
  ("gwit", .leaf "网站it" "website it"),
  ("gwnm", .leaf "网站nm" "website nm"),
  ("gwqc", .leaf "网站qc" "website qc"),
  ("gwqh", .leaf "网站qh" "website qh"),
  ("gwqz", .leaf "网站qz" "website qz"),
  ("gwsa", .leaf "网站sa" "website sa"),
  ("gwsc", .leaf "网站sc" "website sc"),
  ("gwsd", .leaf "网站sd" "website sd"),
  ("gwsh", .leaf "网站sh" "website sh"),
  ("gwss", .leaf "网站ss" "website ss"),
  ("gwsx", .leaf "网站sx" "website sx"),
  ("gwsz", .leaf "网站sz" "website sz"),
  ("gwtj", .leaf "网站tj" "website tj"),
  ("gwxj", .leaf "网站xj" "website xj"),
  ("gwyn", .leaf "网站yn" "website yn"),
  ("gwz", .leaf "网站z" "website z"),
  ("gwzj", .leaf "网站zj" "website zj")]

def g_sub : List (String × PosEntry) := [
  ("ga", .node "通讯社" "news agency" ga_sub),
  ("gjtgj", .leaf "车辆" "vehicle"),
  ("gms", .leaf "食物" "food"),
  ("gn", .node "新闻" "news" gn_sub),
  ("gr", .node "广播电台" "radio station" gr_sub),
  ("gt", .node "电视台" "tv station" gt_sub),
  ("gw", .node "网站" "website" gw_sub)]

/-- The top-level taxonomy dictionary `POS_MAP`. -/
def POS_MAP : List (String × PosEntry) := [
  ("n", .node "名词" "noun" n_sub),
  ("t", .node "时间词" "time word" t_sub),
  ("s", .leaf "处所词" "locative word"),
  ("f", .leaf "方位词" "noun of locality"),
  ("v", .node "动词" "verb" v_sub),
  ("a", .node "形容词" "adjective" a_sub),
  ("b", .node "区别词" "distinguishing word" b_sub),
  ("z", .leaf "状态词" "status word"),
  ("r", .node "代词" "pronoun" r_sub),
  ("m", .node "数词" "numeral" m_sub),
  ("q", .node "量词" "classifier" q_sub),
  ("d", .leaf "副词" "adverb"),
  ("p", .node "介词" "preposition" p_sub),
  ("c", .node "连词" "conjunction" c_sub),
  ("u", .node "助词" "particle" u_sub),
  ("e", .leaf "叹词" "interjection"),
  ("y", .leaf "语气词" "modal particle"),
  ("o", .leaf "拟声词" "onomatopoeia"),
  ("h", .leaf "前缀" "prefix"),
  ("k", .leaf "后缀" "suffix"),
  ("x", .node "字符串" "string" x_sub),
  ("w", .node "标点符号" "punctuation mark" w_sub),
  ("g", .node "其他" "others" g_sub)]

/-- `get_pos_name(code, name, english)`: the public entry point, resolving
against `POS_MAP`. -/
def get_pos_name (code name : String) (english : Bool) :
    Except PyError (Option PosName) :=
  _get_pos_name code name english POS_MAP

/-! ## Derived notions used to state the claims. -/

/-- A code is a dead end in `posMap` when the prefix scan matches a node that
has a child dict, the match is proper (characters remain), and the remaining
code matches none of the children. -/
def isDeadEnd (posMap : List (String × PosEntry)) (code : String) : Bool :=
  match findMatch posMap code with
  | some (k, .node _ _ ch) => (k != code) && (findMatch ch code).isNone
  | _ => false

/-- A leaf of the taxonomy together with its own display names and the full
paths of display names from its top-level ancestor down to itself. -/
structure LeafEntry : Type where
  code : String
  zh : String
  en : String
  zhPath : List String
  enPath : List String
deriving DecidableEq

/-- Collect every leaf of a taxonomy dict (fuel-indexed traversal). -/
def collectLeavesF : Nat → List String → List String →
    List (String × PosEntry) → List LeafEntry
  | 0, _, _, _ => []
  | fuel + 1, pzh, pen, m =>
    m.flatMap (fun p =>
      match p.2 with
      | .leaf zh en => [⟨p.1, zh, en, pzh ++ [zh], pen ++ [en]⟩]
      | .node zh en ch => collectLeavesF fuel (pzh ++ [zh]) (pen ++ [en]) ch)

/-- All leaves of `POS_MAP` (its nesting depth is 3, so fuel 8 is ample). -/
def taxonomyLeaves : List LeafEntry := collectLeavesF 8 [] [] POS_MAP

/-- All codes occurring anywhere in a taxonomy dict, nested levels included
(fuel-indexed traversal). -/
def subCodesF : Nat → List (String × PosEntry) → List String
  | 0, _ => []
  | fuel + 1, m =>
    m.flatMap (fun p =>
      p.1 :: (match p.2 with
              | .leaf _ _ => []
              | .node _ _ ch => subCodesF fuel ch))

/-- Check that, recursively, every node's code is a strict textual prefix of
every code in its subtree (hence strictly longer than its parent's code). -/
def strictPrefixOkF : Nat → List (String × PosEntry) → Bool
  | 0, _ => false
  | fuel + 1, m =>
    m.all (fun p =>
      match p.2 with
      | .leaf _ _ => true
      | .node _ _ ch =>
        (subCodesF fuel ch).all
            (fun c => p.1.data.isPrefixOf c.data &&
              decide (p.1.length < c.length)) &&
          strictPrefixOkF fuel ch)

/-! ## Helper lemmas. -/

theorem toNat_ofNat_add32 (c : Char) (h : 65 ≤ c.toNat ∧ c.toNat ≤ 90) :
    (Char.ofNat (c.toNat + 32)).toNat = c.toNat + 32 := by
  have hv : Nat.isValidChar (c.toNat + 32) := Or.inl (by omega)
  unfold Char.ofNat
  rw [dif_pos hv]
  rfl

theorem pyLowerChar_idem (c : Char) :
    pyLowerChar (pyLowerChar c) = pyLowerChar c := by
  by_cases h : 65 ≤ c.toNat ∧ c.toNat ≤ 90
  · have ht : (pyLowerChar c).toNat = c.toNat + 32 := by
      rw [pyLowerChar, if_pos h]; exact toNat_ofNat_add32 c h
    conv_lhs => rw [pyLowerChar]
    rw [if_neg (by rw [ht]; omega)]
  · have hfix : pyLowerChar c = c := by rw [pyLowerChar, if_neg h]
    rw [hfix, hfix]

theorem pyLower_idem (s : String) : pyLower (pyLower s) = pyLower s := by
  show (⟨(List.map pyLowerChar s.data).map pyLowerChar⟩ : String) =
    ⟨s.data.map pyLowerChar⟩
  rw [List.map_map]
  exact congrArg String.mk (List.map_congr_left fun a _ => pyLowerChar_idem a)

theorem pyLower_length (s : String) : (pyLower s).length = s.length := by
  show (List.map pyLowerChar s.data).length = s.data.length
  exact List.length_map s.data pyLowerChar

theorem pyLower_ne_empty {s : String} (h : s ≠ "") : pyLower s ≠ "" := by
  intro hc
  apply h
  have hdata : List.map pyLowerChar s.data = [] := congrArg String.data hc
  have hnil : s.data = [] := List.map_eq_nil_iff.mp hdata
  cases s with
  | mk data => rw [show data = [] from hnil]

theorem prefixScan_lookup {posMap : List (String × PosEntry)} {code : String} :
    ∀ {l : List Nat} {k : String} {e : PosEntry},
    prefixScan posMap code l = some (k, e) → posMap.lookup k = some e := by
  intro l
  induction l with
  | nil => intro k e h; simp [prefixScan] at h
  | cons i rest ih =>
    intro k e h
    rw [prefixScan] at h
    split at h
    · rename_i e' hl
      simp only [Option.some.injEq, Prod.mk.injEq] at h
      obtain ⟨hk, he⟩ := h
      rw [← hk, hl, he]
    · exact ih h

theorem prefixScan_range'_spec {posMap : List (String × PosEntry)}
    {code : String} :
    ∀ (b a : Nat) {k : String} {e : PosEntry},
    prefixScan posMap code (List.range' a b) = some (k, e) →
    ∃ i, a ≤ i ∧ i < a + b ∧ k = code.take i ∧
      posMap.lookup (code.take i) = some e ∧
      ∀ j, a ≤ j → j < i → posMap.lookup (code.take j) = none := by
  intro b
  induction b with
  | zero => intro a k e h; simp [List.range'_zero, prefixScan] at h
  | succ b ih =>
    intro a k e h
    rw [List.range'_succ, prefixScan] at h
    split at h
    · rename_i e' hl
      simp only [Option.some.injEq, Prod.mk.injEq] at h
      obtain ⟨hk, he⟩ := h
      refine ⟨a, le_refl a, by omega, hk.symm, by rw [hl, he], ?_⟩
      intro j hj hjlt
      exact absurd hjlt (by omega)
    · rename_i hl
      obtain ⟨i, hi1, hi2, hk, hsome, hmin⟩ := ih (a + 1) h
      refine ⟨i, by omega, by omega, hk, hsome, ?_⟩
      intro j hj hjlt
      rcases Nat.eq_or_lt_of_le hj with rfl | hj'
      · exact hl
      · exact hmin j (by omega) hjlt

theorem prefixScan_range'_first {posMap : List (String × PosEntry)}
    {code : String} :
    ∀ (b a i : Nat) {e : PosEntry}, a ≤ i → i < a + b →
    posMap.lookup (code.take i) = some e →
    (∀ j, a ≤ j → j < i → posMap.lookup (code.take j) = none) →
    prefixScan posMap code (List.range' a b) = some (code.take i, e) := by
  intro b
  induction b with
  | zero => intro a i e h1 h2 _ _; exact absurd h2 (by omega)
  | succ b ih =>
    intro a i e h1 h2 hsome hmin
    rw [List.range'_succ, prefixScan]
    rcases Nat.eq_or_lt_of_le h1 with rfl | hlt
    · rw [hsome]
    · have hla : posMap.lookup (code.take a) = none := hmin a (le_refl a) hlt
      rw [hla]
      exact ih (a + 1) i (by omega) (by omega) hsome
        (fun j hj hjl => hmin j (by omega) hjl)

theorem findMatch_spec {posMap : List (String × PosEntry)} {code : String}
    {k : String} {e : PosEntry} (h : findMatch posMap code = some (k, e)) :
    ∃ i, 1 ≤ i ∧ i ≤ code.length ∧ k = code.take i ∧
      posMap.lookup (code.take i) = some e ∧
      ∀ j, 1 ≤ j → j < i → posMap.lookup (code.take j) = none := by
  obtain ⟨i, h1, h2, h3, h4, h5⟩ := prefixScan_range'_spec code.length 1 h
  exact ⟨i, h1, by omega, h3, h4, h5⟩

theorem findMatch_first {posMap : List (String × PosEntry)} {code : String}
    {i : Nat} {e : PosEntry} (h1 : 1 ≤ i) (h2 : i ≤ code.length)
    (hsome : posMap.lookup (code.take i) = some e)
    (hmin : ∀ j, 1 ≤ j → j < i → posMap.lookup (code.take j) = none) :
    findMatch posMap code = some (code.take i, e) :=
  prefixScan_range'_first code.length 1 i h1 (by omega) hsome hmin

theorem findMatch_lookup {posMap : List (String × PosEntry)} {code : String}
    {k : String} {e : PosEntry} (h : findMatch posMap code = some (k, e)) :
    posMap.lookup k = some e :=
  prefixScan_lookup h

theorem getPosNameF_parent (f : Nat) (posCode : String) (eng : Bool)
    (posMap : List (String × PosEntry)) (k : String) (e : PosEntry)
    (h : findMatch posMap (pyLower posCode) = some (k, e)) :
    getPosNameF (f + 1) posCode "parent" eng posMap =
      .ok (some (.str (if eng then e.nameEn else e.nameZh))) := by
  rw [getPosNameF, if_neg (by simp), h]
  rfl

theorem getPosNameF_nomatch (f : Nat) (posCode names : String) (eng : Bool)
    (posMap : List (String × PosEntry))
    (hv : names = "parent" ∨ names = "child" ∨ names = "all")
    (h : findMatch posMap (pyLower posCode) = none) :
    getPosNameF (f + 1) posCode names eng posMap =
      if (pyLower posCode).length = 0 then .error .unboundLocalError
      else .ok none := by
  rw [getPosNameF, if_neg (not_not_intro hv), h]

theorem getPosNameF_leaf_child (f : Nat) (posCode : String) (eng : Bool)
    (posMap : List (String × PosEntry)) (k zh en : String)
    (h : findMatch posMap (pyLower posCode) = some (k, .leaf zh en)) :
    getPosNameF (f + 1) posCode "child" eng posMap =
      .ok (some (.str (if eng then en else zh))) := by
  rw [getPosNameF, if_neg (by simp), h]
  rfl

theorem getPosNameF_leaf_all (f : Nat) (posCode : String) (eng : Bool)
    (posMap : List (String × PosEntry)) (k zh en : String)
    (h : findMatch posMap (pyLower posCode) = some (k, .leaf zh en)) :
    getPosNameF (f + 1) posCode "all" eng posMap =
      .ok (some (.tup [if eng then en else zh])) := by
  rw [getPosNameF, if_neg (by simp), h]
  rfl

theorem getPosNameF_exact_child (f : Nat) (posCode : String) (eng : Bool)
    (posMap : List (String × PosEntry)) (zh en : String)
    (ch : List (String × PosEntry))
    (h : findMatch posMap (pyLower posCode) =
      some (pyLower posCode, .node zh en ch)) :
    getPosNameF (f + 1) posCode "child" eng posMap =
      .ok (some (.str (if eng then en else zh))) := by
  rw [getPosNameF, if_neg (by simp), h]
  dsimp only
  rw [if_neg (show ¬(pyLower posCode ≠ pyLower posCode) from fun hc => hc rfl)]
  rfl

theorem getPosNameF_exact_all (f : Nat) (posCode : String) (eng : Bool)
    (posMap : List (String × PosEntry)) (zh en : String)
    (ch : List (String × PosEntry))
    (h : findMatch posMap (pyLower posCode) =
      some (pyLower posCode, .node zh en ch)) :
    getPosNameF (f + 1) posCode "all" eng posMap =
      .ok (some (.tup [if eng then en else zh])) := by
  rw [getPosNameF, if_neg (by simp), h]
  dsimp only
  rw [if_neg (show ¬(pyLower posCode ≠ pyLower posCode) from fun hc => hc rfl)]
  rfl

theorem getPosNameF_descend_child (f : Nat) (posCode : String) (eng : Bool)
    (posMap : List (String × PosEntry)) (k zh en : String)
    (ch : List (String × PosEntry))
    (h : findMatch posMap (pyLower posCode) = some (k, .node zh en ch))
    (hk : k ≠ pyLower posCode) :
    getPosNameF (f + 1) posCode "child" eng posMap =
      getPosNameF f (pyLower posCode) "child" eng ch := by
  rw [getPosNameF, if_neg (by simp), h]
  dsimp only
  rw [if_pos hk]
  cases hr : getPosNameF f (pyLower posCode) "child" eng ch with
  | error e => rfl
  | ok subPos => rfl

theorem getPosNameF_descend_all (f : Nat) (posCode : String) (eng : Bool)
    (posMap : List (String × PosEntry)) (k zh en : String)
    (ch : List (String × PosEntry))
    (h : findMatch posMap (pyLower posCode) = some (k, .node zh en ch))
    (hk : k ≠ pyLower posCode) :
    getPosNameF (f + 1) posCode "all" eng posMap =
      match getPosNameF f (pyLower posCode) "all" eng ch with
      | .error e => .error e
      | .ok none => .ok (some (.tup [if eng then en else zh]))
      | .ok (some (.str s)) =>
          if s = "" then .ok (some (.tup [if eng then en else zh]))
          else .error .typeError
      | .ok (some (.tup [])) => .ok (some (.tup [if eng then en else zh]))
      | .ok (some (.tup l)) =>
          .ok (some (.tup ((if eng then en else zh) :: l))) := by
  rw [getPosNameF, if_neg (by simp), h]
  dsimp only
  rw [if_pos hk]
  cases hr : getPosNameF f (pyLower posCode) "all" eng ch with
  | error e => rfl
  | ok subPos =>
    cases subPos with
    | none => rfl
    | some pn =>
      cases pn with
      | str s => rfl
      | tup l => cases l with
        | nil => rfl
        | cons a l => rfl

theorem getPosNameF_ne_valueError :
    ∀ (f : Nat) (posCode names : String) (eng : Bool)
      (posMap : List (String × PosEntry)),
    (names = "parent" ∨ names = "child" ∨ names = "all") →
    getPosNameF f posCode names eng posMap ≠ .error .valueError := by
  intro f
  induction f with
  | zero =>
    intro posCode names eng posMap hv hc
    rw [getPosNameF] at hc
    injection hc with h
    exact PyError.noConfusion h
  | succ f ih =>
    intro posCode names eng posMap hv hc
    rw [getPosNameF, if_neg (not_not_intro hv)] at hc
    split at hc
    · split at hc
      · injection hc with h; exact PyError.noConfusion h
      · exact Except.noConfusion hc
    · dsimp only at hc
      split at hc
      · exact Except.noConfusion hc
      · split at hc
        · split at hc
          · split at hc
            · rename_i e' hrec
              injection hc with h
              exact ih (pyLower posCode) names eng _ hv (h ▸ hrec)
            · split at hc
              · split at hc
                · exact Except.noConfusion hc
                · split at hc
                  · exact Except.noConfusion hc
                  · injection hc with h; exact PyError.noConfusion h
                · exact Except.noConfusion hc
                · exact Except.noConfusion hc
              · exact Except.noConfusion hc
          · exact Except.noConfusion hc
        · exact Except.noConfusion hc

theorem getPosNameF_all_head :
    ∀ (f : Nat) (posCode : String) (eng : Bool)
      (m : List (String × PosEntry)) (x : String) (l : List String),
    getPosNameF f posCode "all" eng m = .ok (some (.tup (x :: l))) →
    getPosNameF f posCode "parent" eng m = .ok (some (.str x)) := by
  intro f posCode eng m x l h
  cases f with
  | zero => rw [getPosNameF] at h; exact Except.noConfusion h
  | succ f =>
    cases hm : findMatch m (pyLower posCode) with
    | none =>
      rw [getPosNameF_nomatch f posCode "all" eng m (by simp) hm] at h
      split at h
      · exact Except.noConfusion h
      · injection h with h1; exact Option.noConfusion h1
    | some pr =>
      obtain ⟨k, e⟩ := pr
      rw [getPosNameF_parent f posCode eng m k e hm]
      cases e with
      | leaf zh en =>
        rw [getPosNameF_leaf_all f posCode eng m k zh en hm] at h
        simp only [Except.ok.injEq, Option.some.injEq, PosName.tup.injEq,
          List.cons.injEq] at h
        rw [← h.1]
        rfl
      | node zh en ch =>
        by_cases hk : k = pyLower posCode
        · subst hk
          rw [getPosNameF_exact_all f posCode eng m zh en ch hm] at h
          simp only [Except.ok.injEq, Option.some.injEq, PosName.tup.injEq,
            List.cons.injEq] at h
          rw [← h.1]
          rfl
        · rw [getPosNameF_descend_all f posCode eng m k zh en ch hm hk] at h
          split at h
          · exact Except.noConfusion h
          · simp only [Except.ok.injEq, Option.some.injEq, PosName.tup.injEq,
              List.cons.injEq] at h
            rw [← h.1]
            rfl
          · split at h
            · simp only [Except.ok.injEq, Option.some.injEq, PosName.tup.injEq,
                List.cons.injEq] at h
              rw [← h.1]
              rfl
            · exact Except.noConfusion h
          · simp only [Except.ok.injEq, Option.some.injEq, PosName.tup.injEq,
              List.cons.injEq] at h
            rw [← h.1]
            rfl
          · simp only [Except.ok.injEq, Option.some.injEq, PosName.tup.injEq,
              List.cons.injEq] at h
            rw [← h.1]
            rfl

theorem getPosNameF_child_all :
    ∀ (f : Nat) (posCode : String) (eng : Bool)
      (m : List (String × PosEntry)) (s : String),
    getPosNameF f posCode "child" eng m = .ok (some (.str s)) →
    ∃ l, getPosNameF f posCode "all" eng m = .ok (some (.tup l)) ∧
      l ≠ [] ∧ l.getLast? = some s := by
  intro f
  induction f with
  | zero =>
    intro posCode eng m s h
    rw [getPosNameF] at h
    exact Except.noConfusion h
  | succ f ih =>
    intro posCode eng m s h
    cases hm : findMatch m (pyLower posCode) with
    | none =>
      rw [getPosNameF_nomatch f posCode "child" eng m (by simp) hm] at h
      split at h
      · exact Except.noConfusion h
      · injection h with h1; exact Option.noConfusion h1
    | some pr =>
      obtain ⟨k, e⟩ := pr
      cases e with
      | leaf zh en =>
        rw [getPosNameF_leaf_child f posCode eng m k zh en hm] at h
        simp only [Except.ok.injEq, Option.some.injEq, PosName.str.injEq] at h
        refine ⟨[if eng = true then en else zh],
          getPosNameF_leaf_all f posCode eng m k zh en hm, by simp, ?_⟩
        rw [h]
        rfl
      | node zh en ch =>
        by_cases hk : k = pyLower posCode
        · subst hk
          rw [getPosNameF_exact_child f posCode eng m zh en ch hm] at h
          simp only [Except.ok.injEq, Option.some.injEq, PosName.str.injEq] at h
          refine ⟨[if eng = true then en else zh],
            getPosNameF_exact_all f posCode eng m zh en ch hm, by simp, ?_⟩
          rw [h]
          rfl
        · rw [getPosNameF_descend_child f posCode eng m k zh en ch hm hk] at h
          obtain ⟨l, hall, hne, hlast⟩ := ih (pyLower posCode) eng ch s h
          refine ⟨(if eng = true then en else zh) :: l, ?_, by simp, ?_⟩
          · rw [getPosNameF_descend_all f posCode eng m k zh en ch hm hk, hall]
            cases l with
            | nil => exact absurd rfl hne
            | cons a l' => rfl
          · cases l with
            | nil => exact absurd rfl hne
            | cons a l' => rw [List.getLast?_cons_cons]; exact hlast

theorem getPosNameF_pyLower (f : Nat) (posCode names : String) (eng : Bool)
    (m : List (String × PosEntry)) :
    getPosNameF f posCode names eng m =
      getPosNameF f (pyLower posCode) names eng m := by
  cases f with
  | zero => rfl
  | succ f => rw [getPosNameF, getPosNameF, pyLower_idem]

theorem mapSize_succ (m : List (String × PosEntry)) :
    ∃ f, mapSize m = f + 1 := by
  cases m with
  | nil => exact ⟨0, rfl⟩
  | cons p rest =>
    obtain ⟨k, e⟩ := p
    rw [mapSize]
    exact ⟨entrySize e + mapSize rest, by omega⟩

theorem length_ne_zero_of_ne_empty {s : String} (h : s ≠ "") :
    s.length ≠ 0 := by
  intro hc
  apply h
  have hd : s.data = [] := List.length_eq_zero.mp hc
  cases s with
  | mk d => rw [show d = [] from hd]

theorem deadEnd_behavior (m : List (String × PosEntry)) (posCode : String)
    (eng : Bool) (k zh en : String) (ch : List (String × PosEntry))
    (hm : findMatch m (pyLower posCode) = some (k, .node zh en ch))
    (hk : k ≠ pyLower posCode)
    (hch : findMatch ch (pyLower posCode) = none) :
    _get_pos_name posCode "all" eng m =
      .ok (some (.tup [if eng then en else zh])) ∧
    _get_pos_name posCode "child" eng m = .ok none := by
  have hlc : ¬(pyLower posCode).length = 0 := by
    obtain ⟨i, h1, h2, _⟩ := findMatch_spec hm
    omega
  have hch' : findMatch ch (pyLower (pyLower posCode)) = none := by
    rw [pyLower_idem]; exact hch
  obtain ⟨f', hf⟩ := mapSize_succ m
  constructor
  · rw [_get_pos_name,
      getPosNameF_descend_all (mapSize m) posCode eng m k zh en ch hm hk, hf,
      getPosNameF_nomatch f' (pyLower posCode) "all" eng ch (by simp) hch',
      pyLower_idem, if_neg hlc]
  · rw [_get_pos_name,
      getPosNameF_descend_child (mapSize m) posCode eng m k zh en ch hm hk, hf,
      getPosNameF_nomatch f' (pyLower posCode) "child" eng ch (by simp) hch',
      pyLower_idem, if_neg hlc]

/-! ## The claims. -/

/-- C1 counterexample: `"nq"` matches the top-level node `n` (which has
children), its remainder matches no child, yet `child` granularity returns
`None` (Absent) rather than the parent-level name `"noun"`, contradicting the
claim that CHILD degrades to the deepest matched name and is never Absent. -/
theorem C1_counterexample :
    isDeadEnd POS_MAP (pyLower "nq") = true ∧
    get_pos_name "nq" "child" true = .ok none ∧
    get_pos_name "nq" "child" true ≠ .ok (some (.str "noun")) :=
  ⟨rfl, rfl, by decide⟩

/-- C1 (amended): for every code whose matched node has children but whose
remainder matches none of them, granularity `all` degrades to the names
matched so far (no error, not Absent), while granularity `child` returns
Absent (`None`); illustrated from the top level on `"nq"` (dead end below
`n`) and `"nrx"` (dead end below `nr`). -/
theorem C1_claim :
    (∀ (m : List (String × PosEntry)) (code : String) (eng : Bool)
       (k zh en : String) (ch : List (String × PosEntry)),
       findMatch m (pyLower code) = some (k, .node zh en ch) →
       k ≠ pyLower code →
       findMatch ch (pyLower code) = none →
       _get_pos_name code "all" eng m =
         .ok (some (.tup [if eng then en else zh])) ∧
       _get_pos_name code "child" eng m = .ok none) ∧
    get_pos_name "nq" "all" true = .ok (some (.tup ["noun"])) ∧
    get_pos_name "nq" "child" true = .ok none ∧
    get_pos_name "nrx" "all" true =
      .ok (some (.tup ["noun", "personal name"])) ∧
    get_pos_name "nrx" "child" true = .ok none :=
  ⟨fun m code eng k zh en ch hm hk hch =>
    deadEnd_behavior m code eng k zh en ch hm hk hch, rfl, rfl, rfl, rfl⟩

/-- Witness for C1: the amended claim applied to the dead-end code `"nq"`. -/
theorem C1_witness :
    _get_pos_name "nq" "all" true POS_MAP = .ok (some (.tup ["noun"])) ∧
    _get_pos_name "nq" "child" true POS_MAP = .ok none :=
  C1_claim.1 POS_MAP "nq" true "n" "名词" "noun" n_sub rfl (by decide) rfl

/-- C2 counterexample: `"qq_unknown_code"` does have a matching top-level
prefix (`q`), so it resolves to `"classifier"`, not Absent; and the
empty-string code raises `UnboundLocalError` (the scan loop never binds
`pos_entry`) rather than returning Absent. -/
theorem C2_counterexample :
    get_pos_name "qq_unknown_code" "parent" true =
      .ok (some (.str "classifier")) ∧
    get_pos_name "qq_unknown_code" "parent" true ≠ .ok none ∧
    get_pos_name "" "parent" true = .error .unboundLocalError :=
  ⟨rfl, by decide, rfl⟩

/-- C2 (amended): for every nonempty code no prefix of which matches a
top-level taxonomy code, resolution returns Absent (`None`) for every valid
granularity and language, raising nothing; the empty string instead raises
`UnboundLocalError`; e.g. `"jj_unknown_code"` (no top-level `j` code) gives
Absent, whereas `"qq_unknown_code"` matches the top-level code `q`. -/
theorem C2_claim :
    (∀ (code names : String) (eng : Bool), code ≠ "" →
       (names = "parent" ∨ names = "child" ∨ names = "all") →
       findMatch POS_MAP (pyLower code) = none →
       get_pos_name code names eng = .ok none) ∧
    (∀ (names : String) (eng : Bool),
       (names = "parent" ∨ names = "child" ∨ names = "all") →
       get_pos_name "" names eng = .error .unboundLocalError) ∧
    get_pos_name "jj_unknown_code" "parent" true = .ok none := by
  refine ⟨?_, ?_, rfl⟩
  · intro code names eng hne hv hm
    rw [get_pos_name, _get_pos_name,
      getPosNameF_nomatch (mapSize POS_MAP) code names eng POS_MAP hv hm,
      if_neg (length_ne_zero_of_ne_empty (pyLower_ne_empty hne))]
  · intro names eng hv
    rw [get_pos_name, _get_pos_name,
      getPosNameF_nomatch (mapSize POS_MAP) "" names eng POS_MAP hv rfl]
    rfl

/-- Witness for C2: the amended claim applied to `"jj_unknown_code"` with
granularity `child` and to the empty code with granularity `all`. -/
theorem C2_witness :
    get_pos_name "jj_unknown_code" "child" true = .ok none ∧
    get_pos_name "" "all" false = .error .unboundLocalError :=
  ⟨C2_claim.1 "jj_unknown_code" "child" true (by decide) (by simp) rfl,
   C2_claim.2.1 "all" false (by simp)⟩

/-- C3: resolution raises `ValueError` exactly when the granularity argument
is not one of `parent`, `child`, `all`, for every code and language; an
invalid granularity never produces a result (Absent included), and a valid
one never produces a `ValueError`. -/
theorem C3_claim :
    ∀ (code names : String) (eng : Bool),
    get_pos_name code names eng = .error .valueError ↔
      ¬(names = "parent" ∨ names = "child" ∨ names = "all") := by
  intro code names eng
  constructor
  · intro h hv
    exact getPosNameF_ne_valueError (mapSize POS_MAP + 1) code names eng
      POS_MAP hv h
  · intro hv
    rw [get_pos_name, _get_pos_name, getPosNameF, if_pos hv]

/-- Witness for C3: the invalid granularity `"bogus"` raises `ValueError`,
and the valid granularity `"parent"` does not. -/
theorem C3_witness :
    get_pos_name "nr" "bogus" true = .error .valueError ∧
    ¬get_pos_name "nr" "parent" true = .error .valueError :=
  ⟨(C3_claim "nr" "bogus" true).mpr (by decide),
   fun h => (C3_claim "nr" "parent" true).mp h (by simp)⟩

/-- C4: resolution is case-insensitive: any code resolves exactly as its
lowercased form, for every granularity and language; in particular `"NR"`
and `"nr"` resolve identically. -/
theorem C4_claim :
    (∀ (code names : String) (eng : Bool),
       get_pos_name code names eng = get_pos_name (pyLower code) names eng) ∧
    (∀ (names : String) (eng : Bool),
       get_pos_name "NR" names eng = get_pos_name "nr" names eng) := by
  have key : ∀ (code names : String) (eng : Bool),
      get_pos_name code names eng = get_pos_name (pyLower code) names eng := by
    intro code names eng
    rw [get_pos_name, get_pos_name, _get_pos_name, _get_pos_name]
    exact getPosNameF_pyLower (mapSize POS_MAP + 1) code names eng POS_MAP
  exact ⟨key, fun names eng => key "NR" names eng⟩

/-- C5: the documented concrete resolutions of `"nrj"` (parent, child, all,
English) and `"udh"` (child, Chinese). -/
theorem C5_claim :
    get_pos_name "nrj" "parent" true = .ok (some (.str "noun")) ∧
    get_pos_name "nrj" "child" true =
      .ok (some (.str "Japanese personal name")) ∧
    get_pos_name "nrj" "all" true =
      .ok (some (.tup ["noun", "personal name", "Japanese personal name"])) ∧
    get_pos_name "udh" "child" false = .ok (some (.str "的话")) :=
  ⟨rfl, rfl, rfl, rfl⟩

/-- C6 counterexample: the taxonomy leaves `"gakrn"` and `"gwzj"` are
shadowed by their sibling prefixes `"gakr"` and `"gwz"`, so the
shortest-first scan resolves them to the siblings' names, not their own. -/
theorem C6_counterexample :
    (⟨"gakrn", "通讯社krn", "news agency krn",
      ["其他", "通讯社", "通讯社krn"],
      ["others", "news agency", "news agency krn"]⟩ : LeafEntry) ∈
        taxonomyLeaves ∧
    get_pos_name "gakrn" "child" true =
      .ok (some (.str "news agency kr")) ∧
    get_pos_name "gakrn" "child" true ≠
      .ok (some (.str "news agency krn")) ∧
    get_pos_name "gakrn" "all" true =
      .ok (some (.tup ["others", "news agency", "news agency kr"])) ∧
    (⟨"gwzj", "网站zj", "website zj", ["其他", "网站", "网站zj"],
      ["others", "website", "website zj"]⟩ : LeafEntry) ∈ taxonomyLeaves ∧
    get_pos_name "gwzj" "child" true = .ok (some (.str "website z")) :=
  ⟨by decide, rfl, by decide, rfl, by decide, rfl⟩

set_option maxRecDepth 100000 in
/-- C6 (amended): every code present as a leaf code in the taxonomy, except
the two sibling-shadowed leaves `"gakrn"` and `"gwzj"`, resolves with
granularity `child` to its own display name and with granularity `all` to
the full path of names from its top-level ancestor to itself, in both
languages. -/
theorem C6_claim :
    ∀ L ∈ taxonomyLeaves, L.code ≠ "gakrn" → L.code ≠ "gwzj" →
      get_pos_name L.code "child" true = .ok (some (.str L.en)) ∧
      get_pos_name L.code "child" false = .ok (some (.str L.zh)) ∧
      get_pos_name L.code "all" true = .ok (some (.tup L.enPath)) ∧
      get_pos_name L.code "all" false = .ok (some (.tup L.zhPath)) := by
  decide

/-- Witness for C6: the amended claim applied to the leaf `"nsf"`. -/
theorem C6_witness :
    get_pos_name "nsf" "child" true =
      .ok (some (.str "transcribed toponym")) ∧
    get_pos_name "nsf" "all" true =
      .ok (some (.tup ["noun", "toponym", "transcribed toponym"])) :=
  have h := C6_claim
    ⟨"nsf", "音译地名", "transcribed toponym", ["名词", "地名", "音译地名"],
      ["noun", "toponym", "transcribed toponym"]⟩
    (by decide) (by decide) (by decide)
  ⟨h.1, h.2.2.1⟩

/-- C7: with granularity `parent` the result is the display name of the node
matched at the top level, whatever lies deeper; and every childless
top-level code resolves identically under `parent` and `child`. -/
theorem C7_claim :
    (∀ (m : List (String × PosEntry)) (code : String) (eng : Bool)
       (k : String) (e : PosEntry),
       findMatch m (pyLower code) = some (k, e) →
       _get_pos_name code "parent" eng m =
         .ok (some (.str (if eng then e.nameEn else e.nameZh)))) ∧
    (∀ p ∈ POS_MAP, p.2.isLeaf = true →
       get_pos_name p.1 "parent" true = get_pos_name p.1 "child" true ∧
       get_pos_name p.1 "parent" false = get_pos_name p.1 "child" false) := by
  constructor
  · intro m code eng k e hm
    rw [_get_pos_name]
    exact getPosNameF_parent (mapSize m) code eng m k e hm
  · decide

/-- Witness for C7: the parent-granularity description applied to `"nrj"`,
and the parent/child agreement applied to the childless top-level code
`"s"`. -/
theorem C7_witness :
    _get_pos_name "nrj" "parent" true POS_MAP =
      .ok (some (.str (if true then (PosEntry.node "名词" "noun" n_sub).nameEn
                       else (PosEntry.node "名词" "noun" n_sub).nameZh))) ∧
    get_pos_name "s" "parent" true = get_pos_name "s" "child" true :=
  ⟨C7_claim.1 POS_MAP "nrj" true "n" (.node "名词" "noun" n_sub) rfl,
   (C7_claim.2 ("s", .leaf "处所词" "locative word") (by simp [POS_MAP])
      rfl).1⟩

/-- C8: the match at a level is the shortest matching prefix: any match
found by the scan is `code.take i` for a candidate length `i` between 1 and
the code's length such that no shorter candidate is a key; conversely the
first matching candidate length is the returned match; and when the match
equals the whole (lowercased) input, descent stops there even if the node
has children. -/
theorem C8_claim :
    (∀ (m : List (String × PosEntry)) (code k : String) (e : PosEntry),
       findMatch m code = some (k, e) →
       ∃ i, 1 ≤ i ∧ i ≤ code.length ∧ k = code.take i ∧
         m.lookup (code.take i) = some e ∧
         ∀ j, 1 ≤ j → j < i → m.lookup (code.take j) = none) ∧
    (∀ (m : List (String × PosEntry)) (code : String) (i : Nat)
       (e : PosEntry),
       1 ≤ i → i ≤ code.length → m.lookup (code.take i) = some e →
       (∀ j, 1 ≤ j → j < i → m.lookup (code.take j) = none) →
       findMatch m code = some (code.take i, e)) ∧
    (∀ (m : List (String × PosEntry)) (code : String) (eng : Bool)
       (zh en : String) (ch : List (String × PosEntry)),
       findMatch m (pyLower code) = some (pyLower code, .node zh en ch) →
       _get_pos_name code "child" eng m =
         .ok (some (.str (if eng then en else zh))) ∧
       _get_pos_name code "all" eng m =
         .ok (some (.tup [if eng then en else zh]))) := by
  refine ⟨fun m code k e h => findMatch_spec h,
          fun m code i e h1 h2 h3 h4 => findMatch_first h1 h2 h3 h4,
          fun m code eng zh en ch hm => ⟨?_, ?_⟩⟩
  · rw [_get_pos_name]
    exact getPosNameF_exact_child (mapSize m) code eng m zh en ch hm
  · rw [_get_pos_name]
    exact getPosNameF_exact_all (mapSize m) code eng m zh en ch hm

/-- Witness for C8: the first-match direction applied to `"nrj"` at
candidate length 1, and the stop-at-exact-match behaviour applied to the
code `"n"`, whose node has children. -/
theorem C8_witness :
    findMatch POS_MAP "nrj" =
      some (("nrj" : String).take 1, .node "名词" "noun" n_sub) ∧
    _get_pos_name "n" "child" true POS_MAP =
      .ok (some (.str (if true then "noun" else "名词"))) :=
  ⟨C8_claim.2.1 POS_MAP "nrj" 1 (.node "名词" "noun" n_sub) (by decide)
      (by decide) rfl
      (fun j hj hjl => absurd hjl (Nat.not_lt.mpr hj)),
   (C8_claim.2.2 POS_MAP "n" true "名词" "noun" n_sub rfl).1⟩

/-- C9: in the authored taxonomy, every node's code is a strict textual
prefix (in particular strictly shorter) of every code in its subtree, at
every nesting level. -/
theorem C9_claim : strictPrefixOkF 8 POS_MAP = true := by decide

/-- C10: whenever granularity `all` yields a nonempty sequence, its first
element is the `parent` result, and whenever granularity `child` yields a
name, that name is the last element of the `all` sequence. -/
theorem C10_claim :
    (∀ (code : String) (eng : Bool) (x : String) (l : List String),
       get_pos_name code "all" eng = .ok (some (.tup (x :: l))) →
       get_pos_name code "parent" eng = .ok (some (.str x))) ∧
    (∀ (code : String) (eng : Bool) (s : String),
       get_pos_name code "child" eng = .ok (some (.str s)) →
       ∃ l, get_pos_name code "all" eng = .ok (some (.tup l)) ∧
         l.getLast? = some s) := by
  constructor
  · intro code eng x l h
    exact getPosNameF_all_head (mapSize POS_MAP + 1) code eng POS_MAP x l h
  · intro code eng s h
    obtain ⟨l, hall, _, hlast⟩ :=
      getPosNameF_child_all (mapSize POS_MAP + 1) code eng POS_MAP s h
    exact ⟨l, hall, hlast⟩

/-- Witness for C10: both directions applied to the code `"vx"`. -/
theorem C10_witness :
    get_pos_name "vx" "parent" true = .ok (some (.str "verb")) ∧
    ∃ l, get_pos_name "vx" "all" true = .ok (some (.tup l)) ∧
      l.getLast? = some "performative verb" :=
  ⟨C10_claim.1 "vx" true "verb" ["performative verb"] rfl,
   C10_claim.2 "vx" true "performative verb" rfl⟩
